import Mathlib

/-!
Verification of the chunked audit orchestration pipeline of ClaimGuard AI
(`src/main.py`, function `audit_claims` and its helpers).

The Python source manipulates untyped JSON dictionaries.  The embedding
represents a dictionary by a structure whose fields are `Option`s (`none`
meaning the key is absent), and represents a dynamically typed value sitting
in an amount-carrying slot by `PyVal`, which records the outcome of Python's
`float()` coercion together with the value's truthiness.  Python floats are
modelled by `ℚ`.  The external reasoning capability is opaque and untrusted;
it is modelled by an oracle indexed by call position: per chunk a `ChunkResp`
(the result of stripping fences and JSON-parsing the response, which is the
boundary the pipeline states claims about), per appeal a `GenResult`.
-/

deriving instance DecidableEq for Except

namespace ClaimGuard

/-- A dynamically typed value held in an amount field of a finding
dictionary. `toFloat` is the result of Python's `float(v)` (`none` when the
coercion raises), `truthy` is Python's truth value of `v`. -/
structure PyVal where
  toFloat : Option ℚ
  truthy : Bool
deriving DecidableEq

/-- The Python float `float(q)` as stored by the pipeline itself
(coercible to itself; truthy iff nonzero). -/
def pyNum (q : ℚ) : PyVal := ⟨some q, decide (q ≠ 0)⟩

/-- The Python int `0` used as a `.get` default (main.py line 321). -/
def pyZero : PyVal := ⟨some 0, false⟩

/-- One row of the validated claim table.  The upload validation
(main.py lines 187-198) guarantees the four required columns are present and
`amount` is numeric, so the fields are total here. -/
structure Claim where
  patient_id : String
  procedure_code : String
  diagnosis_code : String
  amount : ℚ
deriving DecidableEq

/-- A flagged-claim dictionary, both as returned by the capability
(`RawFinding`) and after reconciliation (`Finding`); the source mutates one
and the same dict (main.py lines 266-283).  `none` = key absent. -/
structure Finding where
  row : Option Int := none
  denial_code : Option String := none
  reason : Option String := none
  appeal : Option String := none
  patient_id : Option String := none
  procedure_code : Option String := none
  diagnosis_code : Option String := none
  claim_amount : Option PyVal := none
  amount : Option PyVal := none
deriving DecidableEq

/-- The static denial-code reference table `DENIAL_RULES`
(main.py lines 62-85). -/
def DENIAL_RULES : List (String × String) :=
  [("CO-11", "Diagnosis doesn't match procedure – appeal with medical necessity docs."),
   ("CO-15", "Invalid auth number – resubmit with correct prior auth."),
   ("CO-97", "Bundled service – unbundle or appeal as distinct."),
   ("CO-167", "Non-covered service – check policy, appeal if experimental."),
   ("CO-4", "Procedure code inconsistent with modifier – verify modifier usage."),
   ("CO-18", "Duplicate claim – check if already processed."),
   ("CO-19", "Claim denied due to benefit maximum – verify coverage limits."),
   ("CO-22", "Care may be covered by another payer – coordinate benefits."),
   ("CO-24", "Charges exceed fee schedule – verify allowed amounts."),
   ("CO-27", "Expenses incurred after coverage terminated – verify dates."),
   ("CO-29", "Time limit for filing has expired – check timely filing rules."),
   ("CO-50", "These are non-covered services – review policy exclusions."),
   ("CO-96", "Non-covered charge(s) – verify medical necessity."),
   ("CO-109", "Claim not covered by this payer – wrong insurance."),
   ("CO-110", "Billing date predates service date – verify dates."),
   ("CO-119", "Benefit maximum for this time period has been reached."),
   ("PR-1", "Deductible amount – patient responsibility."),
   ("PR-2", "Coinsurance amount – patient responsibility."),
   ("PR-3", "Copayment amount – patient responsibility."),
   ("PR-96", "Non-covered charge(s) – patient responsibility."),
   ("OA-18", "Claim/service lacks information needed for adjudication."),
   ("OA-23", "Impact of prior payer(s) adjudication – coordination of benefits.")]

/-- `DENIAL_RULES.get(code, 'Unknown denial code')` (main.py line 318). -/
def descFor (code : String) : String :=
  (DENIAL_RULES.lookup code).getD "Unknown denial code"

/-! ### Chunk Scheduler (main.py lines 225-234) -/

/-- Python's `range(0, stop, step)` (main.py line 232): the element at index
`i` is `i * step`; the length is `⌈stop / step⌉` per the documented range
semantics. -/
def pyRangeStep (stop step : ℕ) : List ℕ :=
  (List.range ((stop + step - 1) / step)).map (fun i => i * step)

/-- The chunk scheduler: for each `chunk_start` in `range(0, total, size)`,
`chunk_end = min(chunk_start + chunk_size, total)` (main.py lines 232-233). -/
def pyChunks (total_claims chunk_size : ℕ) : List (ℕ × ℕ) :=
  (pyRangeStep total_claims chunk_size).map
    (fun s => (s, min (s + chunk_size) total_claims))

/-! ### Response Reconciler (main.py lines 266-283) -/

/-- One pass of the reconciliation/enrichment loop body for a single flagged
claim (main.py lines 266-283): rewrite a reported 1-based chunk-relative row
to a 0-based absolute row, then, when the resulting `row_idx` (defaulting to
`chunk_start`) is a valid index, copy `patient_id` / `procedure_code` /
`diagnosis_code` from the claim table when the capability did not supply
them, and always overwrite `claim_amount` with the table amount. -/
def reconcileFinding (df : List Claim) (chunk_start : ℕ) (claim : Finding) :
    Finding :=
  let claim :=
    match claim.row with
    | some r => { claim with row := some ((chunk_start : Int) + r - 1) }
    | none => claim
  let row_idx : Int := claim.row.getD (chunk_start : Int)
  if h : 0 ≤ row_idx ∧ row_idx < (df.length : Int) then
    let c := df.get ⟨row_idx.toNat, by omega⟩
    { claim with
      patient_id := some (claim.patient_id.getD c.patient_id)
      procedure_code := some (claim.procedure_code.getD c.procedure_code)
      diagnosis_code := some (claim.diagnosis_code.getD c.diagnosis_code)
      claim_amount := some (pyNum c.amount) }
  else claim

/-! ### Audit Requester (main.py lines 244-263) -/

/-- The JSON object parsed from one chunk's capability response.  Only the
two keys the pipeline reads are modelled. -/
structure AIOutput where
  flagged_claims : Option (List Finding) := none
  total_recovery : Option PyVal := none
deriving DecidableEq

/-- The outcome of one chunk call, after fence stripping and JSON parsing
(main.py lines 244-261): the response may be missing or textless
(`noResponse`, line 246), unparseable (`malformed`, line 261 raising
`json.JSONDecodeError`), or a parsed object. -/
inductive ChunkResp
  | noResponse
  | malformed
  | parsed (o : AIOutput)

/-- `ai_output.get("flagged_claims", [])` (main.py line 262). -/
def extractFlagged (o : AIOutput) : List Finding :=
  o.flagged_claims.getD []

/-- `float(ai_output.get("total_recovery", 0))` (main.py line 263): absent
defaults to the int `0`; a present value goes through `float()`, whose
failure propagates out of the chunk loop and fails the run (caught only by
the generic handler at main.py line 368). -/
def extractRecovery (o : AIOutput) : Except String ℚ :=
  match o.total_recovery with
  | none => .ok 0
  | some v =>
    match v.toFloat with
    | some q => .ok q
    | none => .error "AI processing error: could not convert total_recovery to float"

/-- The chunk loop (main.py lines 232-286): for each chunk, consult the
capability, fail the whole run on a missing or malformed response, extract
and reconcile the flagged claims, and accumulate findings and the running
recovery total.  `gen` is the capability oracle indexed by the 1-based chunk
ordinal. -/
def auditChunksLoop (df : List Claim) (gen : ℕ → ChunkResp) :
    List (ℕ × ℕ) → ℕ → List Finding → ℚ → Except String (List Finding × ℚ)
  | [], _, acc, rec => .ok (acc, rec)
  | (s, _e) :: rest, idx, acc, rec =>
    match gen idx with
    | .noResponse => .error "No response from AI model for chunk"
    | .malformed => .error "AI response parse error"
    | .parsed o =>
      match extractRecovery o with
      | .error msg => .error msg
      | .ok r =>
        auditChunksLoop df gen rest (idx + 1)
          (acc ++ (extractFlagged o).map (reconcileFinding df s)) (rec + r)

/-! ### Recovery Estimator (main.py lines 292-308) -/

/-- The `total_flagged_amount` accumulation (main.py lines 292-300): add
`float(claim['claim_amount'])` when the key is present (an uncaught failure
of this coercion aborts the run), otherwise try `float(claim['amount'])`
under a `try/except: pass`, otherwise skip the finding. -/
def totalFlaggedAmount : List Finding → ℚ → Except String ℚ
  | [], acc => .ok acc
  | f :: rest, acc =>
    match f.claim_amount with
    | some v =>
      match v.toFloat with
      | some q => totalFlaggedAmount rest (acc + q)
      | none => .error "AI processing error: could not convert claim_amount to float"
    | none =>
      match f.amount with
      | some v =>
        match v.toFloat with
        | some q => totalFlaggedAmount rest (acc + q)
        | none => totalFlaggedAmount rest acc
      | none => totalFlaggedAmount rest acc

/-- The trust-bounded recovery estimate (main.py lines 302-308). -/
def recoveryPotential (total_recovery total_flagged_amount : ℚ) : ℚ :=
  if 0 < total_recovery ∧ total_recovery ≤ total_flagged_amount * 1.5 then
    total_recovery
  else if 0 < total_flagged_amount then
    total_flagged_amount * 0.70
  else if 0 < total_recovery then total_recovery else 0

/-! ### Denial Aggregator (main.py lines 310-325) -/

/-- Per denial code statistics (main.py lines 315-319). -/
structure DenialStat where
  count : ℕ
  total_amount : ℚ
  description : String
deriving DecidableEq

/-- `claim.get('claim_amount') or claim.get('amount', 0)` (main.py line
321): Python `or` takes the right operand whenever the left is falsy
(absent key giving `None`, a zero float, an empty string). -/
def claimAmtForStats (f : Finding) : PyVal :=
  match f.claim_amount with
  | some v => if v.truthy then v else f.amount.getD pyZero
  | none => f.amount.getD pyZero

/-- `try: total_amount += float(claim_amt) except: pass`
(main.py lines 322-325). -/
def addAmt (t : ℚ) (amt : PyVal) : ℚ :=
  match amt.toFloat with
  | some q => t + q
  | none => t

/-- The dict update for one finding (main.py lines 313-325): insert a fresh
entry at the end when the code is new (Python dicts preserve insertion
order), then bump `count` and accumulate `total_amount`. -/
def addToStats (code : String) (amt : PyVal) :
    List (String × DenialStat) → List (String × DenialStat)
  | [] => [(code, { count := 1, total_amount := addAmt 0 amt, description := descFor code })]
  | (c, st) :: rest =>
    if c = code then
      (c, { st with count := st.count + 1, total_amount := addAmt st.total_amount amt }) :: rest
    else (c, st) :: addToStats code amt rest

/-- The denial aggregation loop (main.py lines 310-325), keyed by
`claim.get('denial_code', 'UNKNOWN')`. -/
def denialStats (flagged : List Finding) : List (String × DenialStat) :=
  flagged.foldl
    (fun stats f => addToStats (f.denial_code.getD "UNKNOWN") (claimAmtForStats f) stats) []

/-! ### Summary Builder (`build_summary`, main.py lines 87-146) -/

/-- One entry of the structured `top_denials` output
(main.py lines 136-144). -/
structure TopDenial where
  code : String
  count : ℕ
  total_amount : ℚ
  description : String
deriving DecidableEq

/-- The summary dict built by `build_summary`. -/
structure Summary where
  headline : String
  details : List String
  recommended_actions : List String
  top_denials : List TopDenial
deriving DecidableEq

/-- Python's `f"{x:.2f}"` rendering of a money value, at rational precision
(fixed two decimals, rounding half up; the renderings never influence any
verified property, only the literal text of the summary strings). -/
def formatMoney (q : ℚ) : String :=
  let cents : Int := Rat.floor (q * 100 + 1 / 2)
  let sign := if cents < 0 then "-" else ""
  let n := cents.natAbs
  sign ++ toString (n / 100) ++ "." ++
    (if n % 100 < 10 then "0" else "") ++ toString (n % 100)

/-- Python's stable `sorted(..., key=count, reverse=True)` places an element
before the first existing element whose count does not exceed it
(main.py line 105); equal counts keep their first-encountered order. -/
def insertByCountDesc (x : String × DenialStat) :
    List (String × DenialStat) → List (String × DenialStat)
  | [] => [x]
  | y :: ys =>
    if y.2.count ≤ x.2.count then x :: y :: ys else y :: insertByCountDesc x ys

/-- `sorted(denial_stats.items(), key=lambda item: item[1]["count"],
reverse=True)` (main.py line 105): a stable descending sort by count. -/
def sortByCountDesc (l : List (String × DenialStat)) :
    List (String × DenialStat) :=
  l.foldr insertByCountDesc []

/-- `f"{code} · {count} claims (${total_amount:.2f})"` (main.py line 107). -/
def topDenialString (p : String × DenialStat) : String :=
  p.1 ++ " · " ++ toString p.2.count ++ " claims ($" ++ formatMoney p.2.total_amount ++ ")"

/-- `build_summary` (main.py lines 87-146). -/
def build_summary (total_claims : ℕ) (flagged : List Finding)
    (denial_stats : List (String × DenialStat))
    (recovery_potential : ℚ) (total_flagged_amount : ℚ) : Summary :=
  if flagged.length = 0 then
    { headline := "✅ All clear — no potential denials detected."
      details :=
        ["Reviewed " ++ toString total_claims ++ " claims with no issues flagged.",
         "Continue submitting claims as usual and monitor for future denials."]
      recommended_actions :=
        ["Share this clean audit with your team.",
         "Set a reminder to re-run ClaimGuard AI after the next billing cycle."]
      top_denials := [] }
  else
    let flagged_count := flagged.length
    let top_denials := sortByCountDesc denial_stats
    let top_denials_strings := (top_denials.take 3).map topDenialString
    let avg_flagged_amount : ℚ :=
      if flagged_count ≠ 0 then total_flagged_amount / flagged_count else 0
    let recommended_actions := (top_denials.take 3).filterMap (fun p =>
      let description :=
        if p.2.description ≠ "" then p.2.description
        else (DENIAL_RULES.lookup p.1).getD ""
      if description ≠ "" then some (p.1 ++ ": " ++ description) else none)
    let recommended_actions :=
      if recommended_actions.isEmpty then
        ["Review flagged claims and submit appeals promptly."]
      else recommended_actions
    let recommended_actions :=
      if 0 < recovery_potential then
        recommended_actions ++ ["Prioritize high-dollar claims to maximize recovered revenue."]
      else recommended_actions
    { headline :=
        "⚠️ " ++ toString flagged_count ++ " of " ++ toString total_claims ++
        " claims flagged ($" ++ formatMoney total_flagged_amount ++ " at risk)."
      details :=
        ["Estimated recovery potential: $" ++ formatMoney recovery_potential ++ ".",
         "Average flagged claim amount: $" ++ formatMoney avg_flagged_amount ++ ".",
         "Top denial codes: " ++
           (if top_denials_strings.isEmpty then "n/a"
            else String.intercalate ", " top_denials_strings) ++ "."]
      recommended_actions := recommended_actions
      top_denials := (top_denials.take 5).map (fun p =>
        { code := p.1, count := p.2.count, total_amount := p.2.total_amount,
          description := p.2.description }) }

/-! ### Appeal Generator (main.py lines 327-364) -/

/-- The outcome of one appeal-letter capability call (main.py lines
359-361): a response with text, a falsy/textless response, or a raised
exception. -/
inductive GenResult
  | ok (text : String)
  | noText
  | raises

/-- The placeholder appended by the per-letter exception handler
(main.py line 364). -/
def appealFailText (issue : Finding) : String :=
  "Appeal generation failed for issue: " ++ issue.reason.getD "Unknown"

/-- `issue.get('patient_id', df.iloc[0]['patient_id'] if 'patient_id' in
df.columns else 'N/A')` (main.py line 334).  The validated table always has
a `patient_id` column; `df.iloc[0]` raises on an empty table (`none`), which
the per-letter handler would turn into a placeholder. -/
def appealPatientId (df : List Claim) (issue : Finding) : Option String :=
  match df.head? with
  | none => none
  | some c => some (issue.patient_id.getD c.patient_id)

/-- `issue.get('claim_amount') or issue.get('amount', 'N/A')`
(main.py line 339): Python `or` falls through on a falsy left operand. -/
def claimAmtForPrompt (issue : Finding) : Sum PyVal String :=
  match issue.claim_amount with
  | some v =>
    if v.truthy then Sum.inl v
    else
      match issue.amount with
      | some w => Sum.inl w
      | none => Sum.inr "N/A"
  | none =>
    match issue.amount with
    | some w => Sum.inl w
    | none => Sum.inr "N/A"

/-- The dynamic slots interpolated into the fixed appeal-prompt template
(main.py lines 334-357); the template text itself is constant, so a prompt
is faithfully represented by its slots.  `none` when building the prompt
raises (empty table in the `patient_id` fallback). -/
structure AppealPromptData where
  patient_id : String
  procedure_code : String
  diagnosis_code : String
  denial_code : String
  reason : String
  claim_amt : Sum PyVal String
deriving DecidableEq

/-- Assemble the prompt slots for one finding (main.py lines 334-339). -/
def appealPromptData (df : List Claim) (issue : Finding) :
    Option AppealPromptData :=
  match appealPatientId df issue with
  | none => none
  | some pid =>
    some { patient_id := pid
           procedure_code := issue.procedure_code.getD "N/A"
           diagnosis_code := issue.diagnosis_code.getD "N/A"
           denial_code := issue.denial_code.getD "N/A"
           reason := issue.reason.getD "denial"
           claim_amt := claimAmtForPrompt issue }

/-- The appeal-generation loop (main.py lines 329-364): `idx` is the 1-based
enumeration counter, `if idx > 20: break` caps the batch; inside the `try`,
a raised exception (from prompt building or the capability call) appends the
placeholder, a response lacking text appends nothing, and a textual response
appends the letter.  `gen` is the capability oracle indexed by `idx`. -/
def appealsLoop (df : List Claim) (gen : ℕ → GenResult) :
    ℕ → List Finding → List String
  | _, [] => []
  | idx, issue :: rest =>
    if 20 < idx then []
    else
      (match appealPromptData df issue with
       | none => [appealFailText issue]
       | some _ =>
         match gen idx with
         | .ok t => [t]
         | .noText => []
         | .raises => [appealFailText issue]) ++ appealsLoop df gen (idx + 1) rest

/-- Appeal generation over the flagged findings (main.py line 329). -/
def generateAppeals (df : List Claim) (gen : ℕ → GenResult)
    (flagged : List Finding) : List String :=
  appealsLoop df gen 1 flagged

/-! ### The pipeline (main.py lines 200-389) -/

/-- The `AuditResult` payload assembled at main.py lines 374-382. -/
structure RunOutcome where
  total_claims : ℕ
  flagged : List Finding
  recovery_estimate : ℚ
  appeals : List String
  denial_stats : List (String × DenialStat)
  total_flagged_amount : ℚ
  summary : Summary
deriving DecidableEq

/-- The audit pipeline over a validated claim table (main.py lines 221-389):
run the chunk loop, total the flagged amounts, bound the recovery estimate,
aggregate denial statistics, generate capped appeals, and build the summary.
Audit-phase errors propagate as a failed run.  (`float(x) if x else 0.0`
at main.py line 377 is the identity on a float and is not repeated here.) -/
def auditPipeline (df : List Claim) (genAudit : ℕ → ChunkResp)
    (genAppeal : ℕ → GenResult) : Except String RunOutcome :=
  match auditChunksLoop df genAudit (pyChunks df.length 50) 1 [] 0 with
  | .error e => .error e
  | .ok (flagged, total_recovery) =>
    match totalFlaggedAmount flagged 0 with
    | .error e => .error e
    | .ok total_flagged_amount =>
      let recovery_potential := recoveryPotential total_recovery total_flagged_amount
      let stats := denialStats flagged
      let appeals := generateAppeals df genAppeal flagged
      let summary :=
        build_summary df.length flagged stats recovery_potential total_flagged_amount
      .ok { total_claims := df.length
            flagged := flagged
            recovery_estimate := recovery_potential
            appeals := appeals
            denial_stats := stats
            total_flagged_amount := total_flagged_amount
            summary := summary }

/-! ### Spec-side definitions (for refinement comparison only)

These two follow the specification's words, not the source, and exist solely
to be compared with the source-derived definitions above. -/

/-- Spec-side amount of one finding, following the spec's words for `A`:
`claim_amount`, or `amount` when `claim_amount` is absent, skipping
non-numeric values. -/
def specFindingAmount (f : Finding) : ℚ :=
  match f.claim_amount with
  | some v => v.toFloat.getD 0
  | none =>
    match f.amount with
    | some v => v.toFloat.getD 0
    | none => 0

/-- Spec-side `A`: the sum of `specFindingAmount` over all findings. -/
def specTotalFlaggedAmount (fs : List Finding) : ℚ :=
  (fs.map specFindingAmount).sum

/-! ### Concrete run fixtures used by witnesses -/

/-- Test fixture: a one-claim table. -/
def wClaim : Claim := ⟨"P1", "99213", "A1", 1000⟩

/-- Test fixture: each chunk call returns one flagged claim (relative row 1,
code CO-11) and a reported recovery of 1200. -/
def wGenAudit : ℕ → ChunkResp := fun _ =>
  ChunkResp.parsed
    { flagged_claims := some [{ row := some 1, denial_code := some "CO-11",
                                reason := some "Wrong diagnosis" }]
      total_recovery := some (pyNum 1200) }

/-- Test fixture: every appeal call returns a textless response. -/
def wGenAppeal : ℕ → GenResult := fun _ => GenResult.noText

/-- Test fixture: the reconciled, enriched finding the fixture run
produces. -/
def wFinding : Finding :=
  { row := some 0
    denial_code := some "CO-11"
    reason := some "Wrong diagnosis"
    patient_id := some "P1"
    procedure_code := some "99213"
    diagnosis_code := some "A1"
    claim_amount := some (pyNum 1000) }

/-! ## Theorems -/

/-- C3: for every RawFinding that reports a row, the reconciled absolute row
is `chunk_start + reported_row - 1` (the capability reports 1-based
chunk-relative rows, the output row is 0-based absolute); enrichment never
changes the reconciled row. -/
theorem reconciliation_row_arithmetic (df : List Claim) (chunk_start : ℕ)
    (f : Finding) (r : ℤ) (h : f.row = some r) :
    (reconcileFinding df chunk_start f).row =
      some ((chunk_start : ℤ) + r - 1) := by
  simp only [reconcileFinding, h]
  split <;> simp

/-- Witness for C3, with the spec's two worked examples: chunk start 50 and
reported row 1 give absolute row 50; chunk start 50 and reported row 51 give
absolute row 100. -/
theorem reconciliation_row_arithmetic_witness :
    (({ row := some 1 } : Finding)).row = some 1 ∧
    (reconcileFinding [] 50 { row := some 1 }).row = some 50 ∧
    (reconcileFinding [] 50 { row := some 51 }).row = some 100 :=
  ⟨rfl,
   by have h := reconciliation_row_arithmetic [] 50 { row := some 1 } 1 rfl
      simpa using h,
   by have h := reconciliation_row_arithmetic [] 50 { row := some 51 } 51 rfl
      simpa using h⟩

/-- C4: when the reconciled absolute row of a finding is a valid index, the
output finding's `claim_amount` is always the table amount at that row (the
capability's value is never kept), while `patient_id`, `procedure_code` and
`diagnosis_code` are copied from the table only when the capability did not
supply them; an out-of-range absolute row leaves the finding in the output
unenriched (only its row rewritten), not discarded. -/
theorem reconciliation_enrichment (df : List Claim) (chunk_start : ℕ)
    (f : Finding) (r : ℤ) (hr : f.row = some r) :
    (∀ c, 0 ≤ (chunk_start : ℤ) + r - 1 →
      df[((chunk_start : ℤ) + r - 1).toNat]? = some c →
      (reconcileFinding df chunk_start f).claim_amount = some (pyNum c.amount) ∧
      (reconcileFinding df chunk_start f).patient_id =
        some (f.patient_id.getD c.patient_id) ∧
      (reconcileFinding df chunk_start f).procedure_code =
        some (f.procedure_code.getD c.procedure_code) ∧
      (reconcileFinding df chunk_start f).diagnosis_code =
        some (f.diagnosis_code.getD c.diagnosis_code) ∧
      (reconcileFinding df chunk_start f).row =
        some ((chunk_start : ℤ) + r - 1)) ∧
    (((chunk_start : ℤ) + r - 1 < 0 ∨
        (df.length : ℤ) ≤ (chunk_start : ℤ) + r - 1) →
      reconcileFinding df chunk_start f =
        { f with row := some ((chunk_start : ℤ) + r - 1) }) := by
  constructor
  · intro c hnn hc
    rw [List.getElem?_eq_some_iff] at hc
    obtain ⟨hlt, hget⟩ := hc
    subst hget
    simp only [reconcileFinding, hr]
    split
    · refine ⟨?_, ?_, ?_, ?_, ?_⟩ <;> simp [List.get_eq_getElem]
    · rename_i hneg
      exfalso
      apply hneg
      simp only [Option.getD_some]
      omega
  · intro hout
    simp only [reconcileFinding, hr]
    split
    · rename_i hpos
      simp only [Option.getD_some] at hpos
      omega
    · rfl

/-- Witness for C4: with table rows P0 and Q, chunk start 0 and reported row
2 reconcile to absolute row 1; the capability's own `claim_amount` 999 is
replaced by the table amount 200, while the supplied `patient_id` "KEEP" is
retained. -/
theorem reconciliation_enrichment_witness :
    (({ row := some 2, patient_id := some "KEEP",
        claim_amount := some ⟨some 999, true⟩ } : Finding)).row = some 2 ∧
    (0 : ℤ) ≤ ((0 : ℕ) : ℤ) + 2 - 1 ∧
    ([⟨"P0", "PC0", "DC0", 100⟩, ⟨"Q", "PC1", "DC1", 200⟩] :
        List Claim)[((((0 : ℕ) : ℤ) + 2 - 1)).toNat]? =
      some ⟨"Q", "PC1", "DC1", 200⟩ ∧
    (reconcileFinding [⟨"P0", "PC0", "DC0", 100⟩, ⟨"Q", "PC1", "DC1", 200⟩] 0
        { row := some 2, patient_id := some "KEEP",
          claim_amount := some ⟨some 999, true⟩ }).claim_amount =
      some (pyNum 200) ∧
    (reconcileFinding [⟨"P0", "PC0", "DC0", 100⟩, ⟨"Q", "PC1", "DC1", 200⟩] 0
        { row := some 2, patient_id := some "KEEP",
          claim_amount := some ⟨some 999, true⟩ }).patient_id =
      some "KEEP" := by
  have h := (reconciliation_enrichment
    [⟨"P0", "PC0", "DC0", 100⟩, ⟨"Q", "PC1", "DC1", 200⟩] 0
    { row := some 2, patient_id := some "KEEP",
      claim_amount := some ⟨some 999, true⟩ } 2 rfl).1
    ⟨"Q", "PC1", "DC1", 200⟩ (by decide) (by with_unfolding_all decide)
  exact ⟨rfl, by decide, by with_unfolding_all decide, h.1, h.2.1⟩

/-- C8 counterexample: a finding the capability returned without any `row`
key is nevertheless enriched (the code falls back to the chunk start index,
main.py line 273) and the enriched output carries no row field at all, so
"every output Finding into which source-table fields were copied carries a
row field with 0 <= row < total_claims" is false. -/
theorem enrichment_row_counterexample :
    (({} : Finding)).patient_id = none ∧
    (reconcileFinding [⟨"P0", "PC", "DC", 100⟩] 0 {}).patient_id = some "P0" ∧
    (reconcileFinding [⟨"P0", "PC", "DC", 100⟩] 0 {}).claim_amount =
      some (pyNum 100) ∧
    (reconcileFinding [⟨"P0", "PC", "DC", 100⟩] 0 {}).row = none := by
  refine ⟨rfl, ?_, ?_, ?_⟩ <;> with_unfolding_all decide

/-- C8 (amended): whenever enrichment changes anything beyond the row
rewrite on a finding that reports a row, the reconciled row is in range and
is carried on the output; a finding with an out-of-range reconciled row is
retained with no source-table field added; a finding that reports no row is
enriched from the claim at the chunk start while carrying no row field. -/
theorem enrichment_row_amended (df : List Claim) (chunk_start : ℕ)
    (f : Finding) :
    (f.row = none → ∀ c, df[chunk_start]? = some c →
      reconcileFinding df chunk_start f =
        { f with
          patient_id := some (f.patient_id.getD c.patient_id)
          procedure_code := some (f.procedure_code.getD c.procedure_code)
          diagnosis_code := some (f.diagnosis_code.getD c.diagnosis_code)
          claim_amount := some (pyNum c.amount) } ∧
      (reconcileFinding df chunk_start f).row = none) ∧
    (∀ r : ℤ, f.row = some r →
      reconcileFinding df chunk_start f ≠
        { f with row := some ((chunk_start : ℤ) + r - 1) } →
      0 ≤ (chunk_start : ℤ) + r - 1 ∧
      (chunk_start : ℤ) + r - 1 < (df.length : ℤ) ∧
      (reconcileFinding df chunk_start f).row =
        some ((chunk_start : ℤ) + r - 1)) := by
  constructor
  · intro hnone c hc
    rw [List.getElem?_eq_some_iff] at hc
    obtain ⟨hlt, hget⟩ := hc
    subst hget
    simp only [reconcileFinding, hnone]
    split
    · constructor
      · simp [List.get_eq_getElem, hnone]
      · simp [hnone]
    · rename_i hneg
      exfalso
      apply hneg
      simp only [hnone, Option.getD_none]
      omega
  · intro r hr hne
    by_cases hcond : 0 ≤ (chunk_start : ℤ) + r - 1 ∧
        (chunk_start : ℤ) + r - 1 < (df.length : ℤ)
    · refine ⟨hcond.1, hcond.2, ?_⟩
      simp only [reconcileFinding, hr]
      split <;> simp
    · exfalso
      apply hne
      simp only [reconcileFinding, hr]
      split
      · rename_i hpos
        exact absurd (by simpa using hpos) hcond
      · rfl

/-- Witness for C8 (amended): on a one-row table, a row-less finding is
enriched from row 0 of the table and the output still has no row. -/
theorem enrichment_row_amended_witness :
    (({} : Finding)).row = none ∧
    ([⟨"P0", "PC", "DC", 100⟩] : List Claim)[0]? =
      some ⟨"P0", "PC", "DC", 100⟩ ∧
    (reconcileFinding [⟨"P0", "PC", "DC", 100⟩] 0 {}).row = none := by
  have h := (enrichment_row_amended [⟨"P0", "PC", "DC", 100⟩] 0 {}).1 rfl
    ⟨"P0", "PC", "DC", 100⟩ (by with_unfolding_all decide)
  exact ⟨rfl, by with_unfolding_all decide, h.2⟩

/-- C10: when a finding lacks a `patient_id`, the appeal prompt's patient-id
slot is filled from the first row (index 0) of the claim table, and the
prompt data does not depend on the finding's own row at all. -/
theorem appeal_patient_id_fallback (c : Claim) (cs : List Claim)
    (issue : Finding) (h : issue.patient_id = none) :
    appealPatientId (c :: cs) issue = some c.patient_id ∧
    (appealPromptData (c :: cs) issue).map AppealPromptData.patient_id =
      some c.patient_id ∧
    ∀ r : Option ℤ,
      appealPromptData (c :: cs) { issue with row := r } =
        appealPromptData (c :: cs) issue := by
  refine ⟨?_, ?_, ?_⟩
  · simp [appealPatientId, h]
  · simp [appealPromptData, appealPatientId, h]
  · intro r
    simp [appealPromptData, appealPatientId, claimAmtForPrompt, h]

/-- Witness for C10: on a two-row table with distinct patient ids, a
patient-id-less finding referring to row 1 still gets the row-0 patient id
"P0", not "P1". -/
theorem appeal_patient_id_fallback_witness :
    (({ row := some 1 } : Finding)).patient_id = none ∧
    appealPatientId [⟨"P0", "x", "y", 1⟩, ⟨"P1", "x", "y", 2⟩]
      { row := some 1 } = some "P0" ∧
    "P0" ≠ "P1" :=
  ⟨rfl,
   (appeal_patient_id_fallback ⟨"P0", "x", "y", 1⟩ [⟨"P1", "x", "y", 2⟩]
     { row := some 1 } rfl).1,
   by decide⟩

/-- The appeal loop, written as a `filterMap` over the positions of the
first `min(20, len)` findings: a textual response contributes the letter, an
exception contributes the placeholder, a textless response contributes
nothing. -/
theorem appealsLoop_eq (df : List Claim) (gen : ℕ → GenResult)
    (hdf : df ≠ []) :
    ∀ (flagged : List Finding) (idx : ℕ),
      appealsLoop df gen idx flagged =
        (List.range (min (21 - idx) flagged.length)).filterMap (fun k =>
          match gen (idx + k) with
          | .ok t => some t
          | .noText => none
          | .raises => some (appealFailText (flagged.getD k ({} : Finding)))) := by
  intro flagged
  induction flagged with
  | nil => intro idx; simp [appealsLoop]
  | cons issue rest ih =>
    intro idx
    obtain ⟨c, cs, rfl⟩ : ∃ c cs, df = c :: cs := by
      cases df with
      | nil => exact absurd rfl hdf
      | cons c cs => exact ⟨c, cs, rfl⟩
    by_cases h20 : 20 < idx
    · have hz : 21 - idx = 0 := by omega
      simp [appealsLoop, h20, hz]
    · have hmin : min (21 - idx) (issue :: rest).length =
          min (20 - idx) rest.length + 1 := by
        simp only [List.length_cons]
        omega

      rw [hmin, List.range_succ_eq_map, List.filterMap_cons, List.filterMap_map]
      have htail : appealsLoop (c :: cs) gen (idx + 1) rest =
          (List.range (min (20 - idx) rest.length)).filterMap (fun k =>
            match gen (idx + 1 + k) with
            | .ok t => some t
            | .noText => none
            | .raises => some (appealFailText (rest.getD k ({} : Finding)))) := by
        rw [ih (idx + 1)]
        congr 2
        omega
      have hcomp : ((fun k =>
          match gen (idx + k) with
          | GenResult.ok t => some t
          | GenResult.noText => none
          | GenResult.raises =>
            some (appealFailText ((issue :: rest).getD k ({} : Finding)))) ∘
            Nat.succ) =
          (fun k =>
            match gen (idx + 1 + k) with
            | GenResult.ok t => some t
            | GenResult.noText => none
            | GenResult.raises =>
              some (appealFailText (rest.getD k ({} : Finding)))) := by
        funext k
        have harith : idx + Nat.succ k = idx + 1 + k := by omega
        simp only [Function.comp, harith, List.getD_cons_succ]
      rw [hcomp]
      simp only [appealsLoop, if_neg h20, appealPromptData, appealPatientId,
        List.head?_cons, htail, Nat.add_zero, List.getD_cons_zero]
      cases hg : gen idx <;> simp [hg]


/-- C2 counterexample: with one finding and a capability response that
carries no text, the appeal generator appends nothing at all (main.py lines
360-361 silently skip), so the output has 0 entries instead of the claimed
`min(20, 1) = 1` placeholder-bearing entries. -/
theorem appeal_generator_counterexample :
    (generateAppeals [⟨"P0", "X", "Y", 10⟩] (fun _ => GenResult.noText)
        [{ reason := some "Missing auth" }]).length = 0 ∧
    min 20 ([({ reason := some "Missing auth" } : Finding)]).length = 1 := by
  constructor <;> with_unfolding_all decide

/-- C2 (amended): the appeal generator processes exactly the first
`min(20, len(findings))` findings in their original order; a per-letter
exception is replaced in place by a placeholder naming the finding's reason
and never aborts the batch, while a response lacking text is skipped
silently and contributes no output entry (so the output can be shorter than
`min(20, len(findings))`). -/
theorem appeal_generator_amended (df : List Claim) (gen : ℕ → GenResult)
    (flagged : List Finding) (hdf : df ≠ []) :
    generateAppeals df gen flagged =
      (List.range (min 20 flagged.length)).filterMap (fun k =>
        match gen (k + 1) with
        | .ok t => some t
        | .noText => none
        | .raises => some (appealFailText (flagged.getD k ({} : Finding)))) := by
  rw [generateAppeals, appealsLoop_eq df gen hdf flagged 1]
  have h21 : 21 - 1 = 20 := by omega
  rw [h21]
  congr 1
  funext k
  rw [Nat.add_comm 1 k]

/-- Witness for C2 (amended): three findings; the first call returns a
letter, the second returns no text (skipped), the third raises (placeholder
naming reason "C"); output order follows the findings. -/
theorem appeal_generator_amended_witness :
    ([(⟨"P0", "X", "Y", 10⟩ : Claim)] ≠ []) ∧
    generateAppeals [⟨"P0", "X", "Y", 10⟩]
        (fun k => if k = 1 then GenResult.ok "L1"
                  else if k = 2 then GenResult.noText else GenResult.raises)
        [{ reason := some "A" }, { reason := some "B" },
         { reason := some "C" }] =
      ["L1", "Appeal generation failed for issue: C"] :=
  ⟨List.cons_ne_nil _ _,
   (appeal_generator_amended [⟨"P0", "X", "Y", 10⟩]
      (fun k => if k = 1 then GenResult.ok "L1"
                else if k = 2 then GenResult.noText else GenResult.raises)
      [{ reason := some "A" }, { reason := some "B" }, { reason := some "C" }]
      (List.cons_ne_nil _ _)).trans (by with_unfolding_all decide)⟩

/-- C6 counterexample: a chunk response whose `total_recovery` value cannot
be coerced by `float()` does not default to 0; it raises and fails the whole
run (main.py line 263, caught only at line 368). -/
theorem extraction_defaults_counterexample :
    auditPipeline [⟨"P1", "X", "Y", 100⟩]
        (fun _ => ChunkResp.parsed
          { flagged_claims := none, total_recovery := some ⟨none, true⟩ })
        (fun _ => GenResult.noText) =
      Except.error
        "AI processing error: could not convert total_recovery to float" := by
  with_unfolding_all decide

/-- C6 (amended): for a successfully parsed chunk response,
`flagged_claims` defaults to the empty array when absent, and
`total_recovery` defaults to 0 when absent, the run proceeding; but when
`total_recovery` is present and not coercible by `float()`, the run fails
with an error rather than defaulting to 0. -/
theorem extraction_defaults_amended (df : List Claim) (gen : ℕ → ChunkResp)
    (o : AIOutput) (s e idx : ℕ) (rest : List (ℕ × ℕ)) (acc : List Finding)
    (rec : ℚ) (hgen : gen idx = ChunkResp.parsed o) :
    (o.flagged_claims = none → extractFlagged o = []) ∧
    (o.total_recovery = none →
      auditChunksLoop df gen ((s, e) :: rest) idx acc rec =
        auditChunksLoop df gen rest (idx + 1)
          (acc ++ (extractFlagged o).map (reconcileFinding df s)) rec) ∧
    (∀ v, o.total_recovery = some v → v.toFloat = none →
      auditChunksLoop df gen ((s, e) :: rest) idx acc rec =
        Except.error
          "AI processing error: could not convert total_recovery to float") := by
  refine ⟨?_, ?_, ?_⟩
  · intro h
    simp [extractFlagged, h]
  · intro h
    simp [auditChunksLoop, hgen, extractRecovery, h]
  · intro v hv htf
    simp [auditChunksLoop, hgen, extractRecovery, hv, htf]

/-- Witness for C6 (amended): a parsed response with both keys absent gives
the empty finding list, contributes 0 to the recovery total, and the run
completes. -/
theorem extraction_defaults_amended_witness :
    (fun _ : ℕ => ChunkResp.parsed ({} : AIOutput)) 1 =
      ChunkResp.parsed ({} : AIOutput) ∧
    ({} : AIOutput).total_recovery = none ∧
    auditChunksLoop [] (fun _ => ChunkResp.parsed ({} : AIOutput))
      [(0, 0)] 1 [] 0 = Except.ok ([], 0) := by
  refine ⟨rfl, rfl, ?_⟩
  have h := (extraction_defaults_amended [] (fun _ => ChunkResp.parsed {})
    {} 0 0 1 [] [] 0 rfl).2.1 rfl
  rw [h]
  with_unfolding_all decide

/-- Updating one code's entry adds exactly 1 to the total of all counts. -/
theorem addToStats_sumCounts (code : String) (amt : PyVal) :
    ∀ stats : List (String × DenialStat),
      ((addToStats code amt stats).map (fun p => p.2.count)).sum =
        ((stats.map (fun p => p.2.count)).sum) + 1 := by
  intro stats
  induction stats with
  | nil => simp [addToStats]
  | cons p rest ih =>
    obtain ⟨c, st⟩ := p
    simp only [addToStats]
    by_cases h : c = code
    · simp [h]
      omega
    · simp [h, ih]
      omega

/-- Updating one code's entry bumps exactly that code's count by 1, leaving
every other code's count unchanged (`none` counts as 0). -/
theorem addToStats_cnt (code : String) (amt : PyVal) (c' : String) :
    ∀ stats : List (String × DenialStat),
      (((addToStats code amt stats).lookup c').map DenialStat.count).getD 0 =
        (((stats.lookup c').map DenialStat.count).getD 0) +
          (if c' = code then 1 else 0) := by
  intro stats
  induction stats with
  | nil =>
    by_cases h : c' = code
    · subst h
      simp [addToStats, List.lookup]
    · have hb : (c' == code) = false := beq_eq_false_iff_ne.mpr h
      simp [addToStats, List.lookup, hb, h]
  | cons p rest ih =>
    obtain ⟨c, st⟩ := p
    by_cases h : c = code
    · subst h
      by_cases h' : c' = c
      · subst h'
        simp [addToStats, List.lookup]
      · have hb : (c' == c) = false := beq_eq_false_iff_ne.mpr h'
        simp [addToStats, List.lookup, hb, h']
    · by_cases h' : c' = c
      · subst h'
        have hne : ¬c' = code := h
        simp [addToStats, h, List.lookup, hne]
      · have hb : (c' == c) = false := beq_eq_false_iff_ne.mpr h'
        simp [addToStats, h, List.lookup, hb, ih]

/-- Updating preserves the invariant that every entry's description is the
static-table lookup of its own code. -/
theorem addToStats_desc (code : String) (amt : PyVal) :
    ∀ stats : List (String × DenialStat),
      (∀ q ∈ stats, (Prod.snd q).description = descFor q.1) →
      ∀ q ∈ addToStats code amt stats, (Prod.snd q).description = descFor q.1 := by
  intro stats
  induction stats with
  | nil =>
    intro _ q hq
    simp only [addToStats, List.mem_singleton] at hq
    subst hq
    rfl
  | cons p rest ih =>
    obtain ⟨c, st⟩ := p
    intro hinv q hq
    simp only [addToStats] at hq
    by_cases h : c = code
    · rw [if_pos h] at hq
      rcases List.mem_cons.mp hq with h1 | h1
      · subst h1
        exact hinv (c, st) (List.mem_cons_self _ _)
      · exact hinv q (List.mem_cons_of_mem _ h1)
    · rw [if_neg h] at hq
      rcases List.mem_cons.mp hq with h1 | h1
      · subst h1
        exact hinv (c, st) (List.mem_cons_self _ _)
      · exact ih (fun q hq => hinv q (List.mem_cons_of_mem _ hq)) q h1

/-- Updating either keeps the key list or appends the new code at the end. -/
theorem addToStats_keys (code : String) (amt : PyVal) :
    ∀ stats : List (String × DenialStat),
      (code ∈ stats.map Prod.fst →
        (addToStats code amt stats).map Prod.fst = stats.map Prod.fst) ∧
      (code ∉ stats.map Prod.fst →
        (addToStats code amt stats).map Prod.fst =
          stats.map Prod.fst ++ [code]) := by
  intro stats
  induction stats with
  | nil => simp [addToStats]
  | cons p rest ih =>
    obtain ⟨c, st⟩ := p
    by_cases h : c = code
    · subst h
      constructor
      · intro _
        simp [addToStats]
      · intro hnotin
        exact absurd (by simp) hnotin
    · constructor
      · intro hin
        simp only [List.map_cons, List.mem_cons] at hin
        rcases hin with h1 | h1
        · exact absurd h1.symm h
        · simp [addToStats, h, ih.1 h1]
      · intro hnotin
        simp only [List.map_cons, List.mem_cons] at hnotin
        push_neg at hnotin
        simp [addToStats, h, ih.2 hnotin.2]

/-- Key lists stay duplicate-free under updates. -/
theorem addToStats_nodup (code : String) (amt : PyVal)
    (stats : List (String × DenialStat))
    (h : (stats.map Prod.fst).Nodup) :
    ((addToStats code amt stats).map Prod.fst).Nodup := by
  by_cases hin : code ∈ stats.map Prod.fst
  · rw [(addToStats_keys code amt stats).1 hin]
    exact h
  · rw [(addToStats_keys code amt stats).2 hin]
    simp [List.nodup_append, h, hin]

/-- The aggregation loop over a list of findings, with accumulator: the sum
of counts grows by the number of findings. -/
theorem denialStatsGo_sum :
    ∀ (fs : List Finding) (stats : List (String × DenialStat)),
      ((fs.foldl (fun stats f =>
          addToStats (f.denial_code.getD "UNKNOWN") (claimAmtForStats f) stats)
        stats).map (fun p => p.2.count)).sum =
        ((stats.map (fun p => p.2.count)).sum) + fs.length := by
  intro fs
  induction fs with
  | nil => simp
  | cons f rest ih =>
    intro stats
    simp only [List.foldl_cons, List.length_cons]
    rw [ih, addToStats_sumCounts]
    omega

/-- The aggregation loop, per code: each processed finding adds 1 to the
count of exactly its own bucket (`UNKNOWN` when the code is absent). -/
theorem denialStatsGo_cnt :
    ∀ (fs : List Finding) (stats : List (String × DenialStat)) (c' : String),
      (((fs.foldl (fun stats f =>
          addToStats (f.denial_code.getD "UNKNOWN") (claimAmtForStats f) stats)
        stats).lookup c').map DenialStat.count).getD 0 =
        (((stats.lookup c').map DenialStat.count).getD 0) +
          fs.countP (fun f => f.denial_code.getD "UNKNOWN" == c') := by
  intro fs
  induction fs with
  | nil => simp
  | cons f rest ih =>
    intro stats c'
    simp only [List.foldl_cons, List.countP_cons]
    rw [ih, addToStats_cnt]
    by_cases h : c' = f.denial_code.getD "UNKNOWN"
    · simp [h]
      omega
    · simp [h, Ne.symm h]

/-- The aggregation loop preserves the description invariant. -/
theorem denialStatsGo_desc :
    ∀ (fs : List Finding) (stats : List (String × DenialStat)),
      (∀ q ∈ stats, (Prod.snd q).description = descFor q.1) →
      ∀ q ∈ fs.foldl (fun stats f =>
          addToStats (f.denial_code.getD "UNKNOWN") (claimAmtForStats f) stats)
        stats, (Prod.snd q).description = descFor q.1 := by
  intro fs
  induction fs with
  | nil => intro stats h; simpa using h
  | cons f rest ih =>
    intro stats h
    simp only [List.foldl_cons]
    exact ih _ (addToStats_desc _ _ _ h)

/-- The aggregation loop preserves duplicate-freedom of the key list. -/
theorem denialStatsGo_nodup :
    ∀ (fs : List Finding) (stats : List (String × DenialStat)),
      (stats.map Prod.fst).Nodup →
      ((fs.foldl (fun stats f =>
          addToStats (f.denial_code.getD "UNKNOWN") (claimAmtForStats f) stats)
        stats).map Prod.fst).Nodup := by
  intro fs
  induction fs with
  | nil => intro stats h; simpa using h
  | cons f rest ih =>
    intro stats h
    simp only [List.foldl_cons]
    exact ih _ (addToStats_nodup _ _ _ h)

/-- A successful association-list lookup comes from a member pair. -/
theorem lookup_mem {β : Type} (l : List (String × β)) (c : String) (b : β)
    (h : l.lookup c = some b) : (c, b) ∈ l := by
  induction l with
  | nil => simp [List.lookup] at h
  | cons p rest ih =>
    obtain ⟨k, v⟩ := p
    by_cases hk : c = k
    · subst hk
      simp [List.lookup] at h
      simp [h]
    · have hb : (c == k) = false := beq_eq_false_iff_ne.mpr hk
      simp only [List.lookup, hb] at h
      exact List.mem_cons_of_mem _ (ih h)

/-- C7: the denial aggregator groups findings without a `denial_code` under
the constant `UNKNOWN` bucket, each bucket's description is the static-table
lookup defaulting to "Unknown denial code", the bucket keys are pairwise
distinct, and the counts sum to the total number of findings — each finding
contributes exactly 1 to exactly one bucket. -/
theorem denial_aggregator_invariant (fs : List Finding) :
    ((denialStats fs).map (fun p => p.2.count)).sum = fs.length ∧
    ((denialStats fs).map Prod.fst).Nodup ∧
    (∀ code st, (denialStats fs).lookup code = some st →
      st.count = fs.countP (fun f => f.denial_code.getD "UNKNOWN" == code) ∧
      st.description = descFor code) := by
  refine ⟨?_, ?_, ?_⟩
  · have h := denialStatsGo_sum fs []
    simpa [denialStats] using h
  · have h := denialStatsGo_nodup fs [] (by simp)
    simpa [denialStats] using h
  · intro code st hst
    constructor
    · have h := denialStatsGo_cnt fs [] code
      rw [show (fs.foldl (fun stats f =>
          addToStats (f.denial_code.getD "UNKNOWN") (claimAmtForStats f) stats)
        [] : List (String × DenialStat)) = denialStats fs from rfl, hst] at h
      simpa using h
    · exact denialStatsGo_desc fs [] (by simp) (code, st) (lookup_mem _ _ _ hst)

/-- Witness for C7: one finding with no denial code and amount 100 lands in
the `UNKNOWN` bucket with count 1 and the default description. -/
theorem denial_aggregator_invariant_witness :
    (denialStats [{ claim_amount := some ⟨some 100, true⟩ }]).lookup "UNKNOWN" =
      some ⟨1, 100, "Unknown denial code"⟩ ∧
    (1 : ℕ) = List.countP
      (fun f => f.denial_code.getD "UNKNOWN" == "UNKNOWN")
      [({ claim_amount := some ⟨some 100, true⟩ } : Finding)] ∧
    (⟨1, 100, "Unknown denial code"⟩ : DenialStat).description =
      descFor "UNKNOWN" := by
  have hlk : (denialStats [{ claim_amount := some ⟨some 100, true⟩ }]).lookup
      "UNKNOWN" = some ⟨1, 100, "Unknown denial code"⟩ := by
    with_unfolding_all decide
  have h := (denial_aggregator_invariant
    [{ claim_amount := some ⟨some 100, true⟩ }]).2.2 "UNKNOWN" _ hlk
  exact ⟨hlk, h.1, h.2⟩

/-- Membership is preserved by the descending insertion. -/
theorem mem_insertByCountDesc (x z : String × DenialStat) :
    ∀ l, z ∈ insertByCountDesc x l ↔ z = x ∨ z ∈ l := by
  intro l
  induction l with
  | nil => simp [insertByCountDesc]
  | cons y ys ih =>
    by_cases h : y.2.count ≤ x.2.count
    · simp [insertByCountDesc, h]
    · simp [insertByCountDesc, h, ih]
      tauto

/-- Descending insertion preserves count-descending pairwise order. -/
theorem pairwise_insertByCountDesc (x : String × DenialStat) :
    ∀ l, l.Pairwise (fun a b => b.2.count ≤ a.2.count) →
      (insertByCountDesc x l).Pairwise (fun a b => b.2.count ≤ a.2.count) := by
  intro l
  induction l with
  | nil => simp [insertByCountDesc]
  | cons y ys ih =>
    intro hp
    rw [List.pairwise_cons] at hp
    by_cases h : y.2.count ≤ x.2.count
    · rw [insertByCountDesc, if_pos h, List.pairwise_cons]
      refine ⟨?_, List.pairwise_cons.mpr hp⟩
      intro z hz
      rcases List.mem_cons.mp hz with h1 | h1
      · subst h1; exact h
      · exact le_trans (hp.1 z h1) h
    · rw [insertByCountDesc, if_neg h, List.pairwise_cons]
      constructor
      · intro z hz
        rcases (mem_insertByCountDesc x z ys).mp hz with h1 | h1
        · subst h1; omega
        · exact hp.1 z h1
      · exact ih hp.2

/-- The stable sort is count-descending. -/
theorem sortByCountDesc_pairwise (l : List (String × DenialStat)) :
    (sortByCountDesc l).Pairwise (fun a b => b.2.count ≤ a.2.count) := by
  induction l with
  | nil => simp [sortByCountDesc]
  | cons x xs ih =>
    exact pairwise_insertByCountDesc x _ ih

/-- Inserting an element of count `n` prepends it to the count-`n` filter;
inserting any other element leaves the count-`n` filter unchanged. -/
theorem filter_insertByCountDesc (x : String × DenialStat) (n : ℕ) :
    ∀ l, (insertByCountDesc x l).filter (fun p => p.2.count == n) =
      if x.2.count = n then
        x :: l.filter (fun p => p.2.count == n)
      else l.filter (fun p => p.2.count == n) := by
  intro l
  induction l with
  | nil =>
    by_cases h : x.2.count = n <;>
      simp [insertByCountDesc, List.filter_cons, h]
  | cons y ys ih =>
    by_cases hxy : y.2.count ≤ x.2.count
    · rw [insertByCountDesc, if_pos hxy]
      by_cases h : x.2.count = n <;>
        simp [List.filter_cons, h]
    · rw [insertByCountDesc, if_neg hxy]
      by_cases h : x.2.count = n
      · have hyn : ¬(y.2.count = n) := by omega
        rw [if_pos h]
        simp [List.filter_cons, hyn, ih, h]
      · rw [if_neg h]
        by_cases hy : y.2.count = n <;>
          simp [List.filter_cons, hy, ih, h]

/-- Stability: for every count value, the stable descending sort preserves
the original relative order of the entries having that count. -/
theorem sortByCountDesc_filter (l : List (String × DenialStat)) (n : ℕ) :
    (sortByCountDesc l).filter (fun p => p.2.count == n) =
      l.filter (fun p => p.2.count == n) := by
  induction l with
  | nil => simp [sortByCountDesc]
  | cons x xs ih =>
    show (insertByCountDesc x (sortByCountDesc xs)).filter _ = _
    rw [filter_insertByCountDesc]
    by_cases h : x.2.count = n
    · simp [List.filter_cons, h, ih]
    · simp [List.filter_cons, h, ih]

/-- C9: for a non-empty finding list the Summary Builder's prose line lists
at most 3 top denial codes and the structured `top_denials` has at most 5
entries, both taken in order from the stable count-descending sort of the
denial stats (so ordered by count descending, ties in first-encountered
order); with zero findings `top_denials` is empty. -/
theorem summary_top_denials (total_claims : ℕ) (flagged : List Finding)
    (stats : List (String × DenialStat)) (rec tfa : ℚ) :
    (flagged ≠ [] →
      (build_summary total_claims flagged stats rec tfa).top_denials =
          ((sortByCountDesc stats).take 5).map (fun p =>
            { code := p.1, count := p.2.count, total_amount := p.2.total_amount,
              description := p.2.description }) ∧
        (build_summary total_claims flagged stats rec tfa).top_denials.length ≤ 5 ∧
        (build_summary total_claims flagged stats rec tfa).details.getD 2 "" =
          "Top denial codes: " ++
            (if (((sortByCountDesc stats).take 3).map topDenialString).isEmpty
             then "n/a"
             else String.intercalate ", "
               (((sortByCountDesc stats).take 3).map topDenialString)) ++ "." ∧
        (((sortByCountDesc stats).take 3).map topDenialString).length ≤ 3 ∧
        (sortByCountDesc stats).Pairwise (fun a b => b.2.count ≤ a.2.count) ∧
        (∀ n, (sortByCountDesc stats).filter (fun p => p.2.count == n) =
          stats.filter (fun p => p.2.count == n))) ∧
    (build_summary total_claims [] stats rec tfa).top_denials = [] := by
  constructor
  · intro hne
    have hlen : ¬flagged.length = 0 := by
      simpa [List.length_eq_zero] using hne
    refine ⟨?_, ?_, ?_, ?_, ?_, ?_⟩
    · simp [build_summary, hlen]
    · simp only [build_summary, if_neg hlen]
      simp [List.length_take]
    · simp [build_summary, hlen, List.getD]
    · simp [List.length_take]
    · exact sortByCountDesc_pairwise stats
    · intro n
      exact sortByCountDesc_filter stats n
  · simp [build_summary]

/-- Witness for C9: three stats with a count tie between codes A and C;
the sort gives B (count 2) first, then A before C (first-encountered order
among count 1); one finding makes the list non-empty. -/
theorem summary_top_denials_witness :
    ([({} : Finding)] ≠ []) ∧
    (build_summary 3 [{}]
        [("A", ⟨1, 10, "dA"⟩), ("B", ⟨2, 20, "dB"⟩), ("C", ⟨1, 30, "dC"⟩)]
        0 0).top_denials =
      [⟨"B", 2, 20, "dB"⟩, ⟨"A", 1, 10, "dA"⟩, ⟨"C", 1, 30, "dC"⟩] ∧
    (sortByCountDesc
        [("A", ⟨1, 10, "dA"⟩), ("B", ⟨2, 20, "dB"⟩), ("C", ⟨1, 30, "dC"⟩)]).filter
      (fun p => p.2.count == 1) =
      List.filter (fun p => p.2.count == 1)
        [("A", ⟨1, 10, "dA"⟩), ("B", ⟨2, 20, "dB"⟩), ("C", ⟨1, 30, "dC"⟩)] := by
  have h := summary_top_denials 3 [{}]
    [("A", ⟨1, 10, "dA"⟩), ("B", ⟨2, 20, "dB"⟩), ("C", ⟨1, 30, "dC"⟩)] 0 0
  have h1 := h.1 (by simp)
  refine ⟨by simp, ?_, h1.2.2.2.2.2 1⟩
  rw [h1.1]
  with_unfolding_all decide

/-- The scheduler in indexed form: chunk `i` is
`(i * C, min (i * C + C) N)`. -/
theorem pyChunks_eq (N C : ℕ) :
    pyChunks N C =
      (List.range ((N + C - 1) / C)).map
        (fun i => (i * C, min (i * C + C) N)) := by
  simp only [pyChunks, pyRangeStep, List.map_map]
  rfl

/-- Joining the first `k` chunks, rendered as index ranges, yields exactly
the indices below `min (k * C) N`. -/
theorem chunksJoin (N C : ℕ) :
    ∀ k, (((List.range k).map (fun i => (i * C, min (i * C + C) N))).map
        (fun p => List.range' p.1 (p.2 - p.1))).flatten =
      List.range (min (k * C) N) := by
  intro k
  induction k with
  | zero => simp
  | succ k ih =>
    rw [List.range_succ, List.map_append, List.map_append, List.flatten_append,
      ih]
    simp only [List.map_cons, List.map_nil, List.flatten_cons, List.flatten_nil,
      List.append_nil]
    by_cases h : k * C < N
    · have hmin1 : min (k * C) N = k * C := by omega
      have hkc : (k + 1) * C = k * C + C := by ring
      have hmin2 : min ((k + 1) * C) N =
          k * C + (min (k * C + C) N - k * C) := by
        rw [hkc]
        omega
      rw [hmin1, hmin2, List.range_eq_range', List.range_eq_range']
      have happ := List.range'_append 0 (k * C) (min (k * C + C) N - k * C) 1
      simp only [one_mul, zero_add] at happ
      rw [happ]
      congr 1
      omega
    · have hmin1 : min (k * C) N = N := by omega
      have h3 : min (k * C + C) N - k * C = 0 := by omega
      have hkc : (k + 1) * C = k * C + C := by ring
      have hmin2 : min ((k + 1) * C) N = N := by
        rw [hkc]
        omega
      rw [hmin1, h3, hmin2]
      simp

/-- C5: for `N ≥ 1` claims and chunk size `C > 0`, the scheduler's chunks
partition `[0, N)` exactly — their ranges join to `range N` (so they are
contiguous, non-overlapping and ascending), every chunk is non-empty, every
non-final chunk has length `C`, and the final chunk has length `N mod C`
when that is nonzero and `C` otherwise. -/
theorem scheduler_partition (N C : ℕ) (hN : 1 ≤ N) (hC : 0 < C) :
    (((pyChunks N C).map (fun p => List.range' p.1 (p.2 - p.1))).flatten =
      List.range N) ∧
    pyChunks N C ≠ [] ∧
    (∀ p ∈ pyChunks N C, p.1 < p.2) ∧
    (∀ i : ℕ, i + 1 < (pyChunks N C).length →
      ((pyChunks N C).getD i (0, 0)).2 - ((pyChunks N C).getD i (0, 0)).1 =
        C) ∧
    (∀ i : ℕ, i + 1 = (pyChunks N C).length →
      ((pyChunks N C).getD i (0, 0)).2 - ((pyChunks N C).getD i (0, 0)).1 =
        if N % C = 0 then C else N % C) := by
  have hk0 : (N + C - 1) / C = (N - 1) / C + 1 := by
    rw [show N + C - 1 = (N - 1) + C by omega, Nat.add_div_right _ hC]
  obtain ⟨d, m, hd, hm, hdm, hmlt⟩ :
      ∃ d m, d = (N - 1) / C ∧ m = (N - 1) % C ∧ C * d + m = N - 1 ∧
        m < C :=
    ⟨(N - 1) / C, (N - 1) % C, rfl, rfl, Nat.div_add_mod _ _,
      Nat.mod_lt _ hC⟩
  have hk : (N + C - 1) / C = d + 1 := by
    rw [hk0, hd]
  have hcomm : C * d = d * C := Nat.mul_comm _ _
  have hdc : (d + 1) * C = d * C + C := by ring
  have hNle : N ≤ (d + 1) * C := by omega
  have hlen : (pyChunks N C).length = d + 1 := by
    rw [pyChunks_eq]
    simp [hk]
  refine ⟨?_, ?_, ?_, ?_, ?_⟩
  · rw [pyChunks_eq, chunksJoin N C ((N + C - 1) / C)]
    congr 1
    rw [hk]
    omega
  · apply List.ne_nil_of_length_pos
    rw [hlen]
    omega
  · intro p hp
    rw [pyChunks_eq] at hp
    rw [List.mem_map] at hp
    obtain ⟨i, hi, rfl⟩ := hp
    rw [List.mem_range, hk] at hi
    have hiC : i * C ≤ d * C := mul_le_mul_right' (by omega) C
    simp only [lt_min_iff]
    constructor <;> omega
  · intro i hi
    rw [hlen] at hi
    have hilt : i < (N + C - 1) / C := by
      rw [hk]
      omega
    have hgd : (pyChunks N C).getD i (0, 0) =
        (i * C, min (i * C + C) N) := by
      rw [pyChunks_eq, List.getD_eq_getElem _ _ (by simpa using hilt)]
      simp
    rw [hgd]
    have h1C : (i + 1) * C = i * C + C := by ring
    have hi1C : (i + 1) * C ≤ d * C := mul_le_mul_right' (by omega) C
    have hlt : i * C + C < N := by omega
    rw [min_eq_left (by omega)]
    omega
  · intro i hi
    rw [hlen] at hi
    have hieq : i = d := by omega
    have hilt : i < (N + C - 1) / C := by
      rw [hk]
      omega
    have hgd : (pyChunks N C).getD i (0, 0) =
        (i * C, min (i * C + C) N) := by
      rw [pyChunks_eq, List.getD_eq_getElem _ _ (by simpa using hilt)]
      simp
    rw [hgd, hieq]
    have hminN : min (d * C + C) N = N := by omega
    rw [hminN]
    have hNeq : N = C * d + (m + 1) := by omega
    by_cases hmc : m + 1 = C
    · have h0 : N % C = 0 := by
        rw [hNeq, hmc, show C * d + C = C * (d + 1) by ring,
          Nat.mul_mod_right]
      rw [if_pos h0]
      omega
    · have h1 : N % C = m + 1 := by
        rw [hNeq, Nat.mul_add_mod]
        exact Nat.mod_eq_of_lt (by omega)
      rw [if_neg (by omega), h1]
      omega

/-- Witness for C5 at `N = 5`, `C = 2`: the chunks of a 5-row table with
chunk size 2 join to exactly the indices 0..4. -/
theorem scheduler_partition_witness :
    (1 ≤ 5) ∧ (0 < 2) ∧
    (((pyChunks 5 2).map (fun p => List.range' p.1 (p.2 - p.1))).flatten =
      List.range 5) :=
  ⟨by decide, by decide, (scheduler_partition 5 2 (by decide) (by decide)).1⟩

/-- When the flagged-amount accumulation succeeds, it computes the
spec-side sum: `claim_amount`, or `amount` when `claim_amount` is absent,
skipping non-numeric values. -/
theorem totalFlaggedAmount_ok :
    ∀ (fs : List Finding) (acc A : ℚ),
      totalFlaggedAmount fs acc = .ok A →
      A = acc + specTotalFlaggedAmount fs := by
  intro fs
  induction fs with
  | nil =>
    intro acc A h
    simp only [totalFlaggedAmount, Except.ok.injEq] at h
    simp [specTotalFlaggedAmount, ← h]
  | cons f rest ih =>
    intro acc A h
    have hspec : specTotalFlaggedAmount (f :: rest) =
        specFindingAmount f + specTotalFlaggedAmount rest := by
      simp [specTotalFlaggedAmount]
    simp only [totalFlaggedAmount] at h
    cases hca : f.claim_amount with
    | some v =>
      cases htf : v.toFloat with
      | some q =>
        simp only [hca, htf] at h
        rw [hspec, show specFindingAmount f = q from by
          simp [specFindingAmount, hca, htf], ih _ _ h]
        ring
      | none =>
        simp only [hca, htf] at h
        exact Except.noConfusion h
    | none =>
      cases hfa : f.amount with
      | some v =>
        cases htf : v.toFloat with
        | some q =>
          simp only [hca, hfa, htf] at h
          rw [hspec, show specFindingAmount f = q from by
            simp [specFindingAmount, hca, hfa, htf], ih _ _ h]
          ring
        | none =>
          simp only [hca, hfa, htf] at h
          rw [hspec, show specFindingAmount f = 0 from by
            simp [specFindingAmount, hca, hfa, htf], ih _ _ h]
          ring
      | none =>
        simp only [hca, hfa] at h
        rw [hspec, show specFindingAmount f = 0 from by
          simp [specFindingAmount, hca, hfa], ih _ _ h]
        ring

/-- C1: for every completed run, with `R` the accumulated chunk recovery
total and `A` the sum over the findings of `claim_amount` (or `amount` when
`claim_amount` is absent, skipping non-numeric values): the result's
`recovery_estimate` is `R` when `R > 0` and `R ≤ 1.5 * A`, else `0.70 * A`
when `A > 0`, else `R` when `R > 0` and `0` otherwise; and `A` is returned
as `total_flagged_amount`. -/
theorem recovery_estimator_policy (df : List Claim) (genA : ℕ → ChunkResp)
    (genP : ℕ → GenResult) (flagged : List Finding) (R : ℚ)
    (out : RunOutcome)
    (hloop : auditChunksLoop df genA (pyChunks df.length 50) 1 [] 0 =
      .ok (flagged, R))
    (hout : auditPipeline df genA genP = .ok out) :
    out.flagged = flagged ∧
    out.total_flagged_amount = specTotalFlaggedAmount flagged ∧
    out.recovery_estimate =
      (if 0 < R ∧ R ≤ 1.5 * specTotalFlaggedAmount flagged then R
       else if 0 < specTotalFlaggedAmount flagged then
         0.70 * specTotalFlaggedAmount flagged
       else if 0 < R then R else 0) := by
  cases hA : totalFlaggedAmount flagged 0 with
  | error e =>
    simp only [auditPipeline, hloop, hA] at hout
    exact Except.noConfusion hout
  | ok A =>
    simp only [auditPipeline, hloop, hA, Except.ok.injEq] at hout
    have hspec : A = specTotalFlaggedAmount flagged := by
      have h := totalFlaggedAmount_ok flagged 0 A hA
      linarith
    subst hout
    refine ⟨rfl, hspec, ?_⟩
    show recoveryPotential R A = _
    rw [hspec]
    unfold recoveryPotential
    rw [mul_comm (specTotalFlaggedAmount flagged) (1.5 : ℚ),
      mul_comm (specTotalFlaggedAmount flagged) (0.70 : ℚ)]

set_option maxRecDepth 8000 in
/-- Witness for C1: a one-claim run with table amount 1000 and reported
recovery 1200; since `1200 ≤ 1.5 * 1000`, the estimate is 1200. -/
theorem recovery_estimator_policy_witness :
    auditChunksLoop [wClaim] wGenAudit
      (pyChunks (List.length [wClaim]) 50) 1 [] 0 =
      Except.ok ([wFinding], 1200) ∧
    (auditPipeline [wClaim] wGenAudit wGenAppeal).map
      (fun o => o.recovery_estimate) = Except.ok 1200 := by
  have h1 : auditChunksLoop [wClaim] wGenAudit
      (pyChunks (List.length [wClaim]) 50) 1 [] 0 =
      Except.ok ([wFinding], 1200) := by
    with_unfolding_all decide
  refine ⟨h1, ?_⟩
  have h2 : totalFlaggedAmount [wFinding] 0 = Except.ok 1000 := by
    with_unfolding_all decide
  obtain ⟨out, hout⟩ : ∃ out,
      auditPipeline [wClaim] wGenAudit wGenAppeal = Except.ok out := by
    simp only [auditPipeline, h1, h2]
    exact ⟨_, rfl⟩
  have hc := recovery_estimator_policy [wClaim] wGenAudit wGenAppeal
    [wFinding] 1200 out h1 hout
  rw [hout]
  simp only [Except.map]
  rw [hc.2.2]
  have hs : specTotalFlaggedAmount [wFinding] = 1000 := by
    with_unfolding_all decide
  rw [hs]
  norm_num

end ClaimGuard
